import Mathlib

/-!
Verification development for the snorkel candidate schema layer
(`src/snorkel/models/candidate.py`) and the spaCy parser adapter
(`src/snorkel/parser/spacy_parser.py`).

The Python sources are shallowly embedded below: each definition carries a
comment pointing at the source lines it translates.  Machine integers are
modelled as `Int`/`Nat` (Python integers are unbounded), fallible code
returns `Except`, and the database side effect of `candidate_subclass`
(table creation) is modelled by explicit state passing of the list of
existing table names.
-/

/-- Modelled from the spec: a `Context` is an external entity (spec section 3,
"Context Store (external)") whose source is not under `src/`.  Per the spec it
carries a stable identifier (`stable_id`) and a `get_parent()` capability
returning its owning document-level context; we model the parent by that
parent context's identifier. -/
structure Context where
  stable_id : String
  parent : String
deriving DecidableEq, Repr

/-- Modelled from the spec: `Context.get_parent()` returns the owning
document-level context, modelled here by its identifier. -/
def Context.get_parent (c : Context) : String :=
  c.parent

/-- An in-memory instance of a concrete `Candidate` variant
(`candidate.py`, class `Candidate`, lines 9-56).  `objectId` models CPython
object identity (`id(self)`): two simultaneously live instances always have
distinct `objectId`s, and since `Candidate` overrides `__hash__` but not
`__eq__`, Python equality `a == b` falls back to identity `a is b`, which in
this model is propositional equality of the structure values.  `argnames`
models the class attribute `__argnames__` installed by `candidate_subclass`,
and `binding` models `getattr(self, name)` for the per-role Context
attributes of a fully populated instance. -/
structure Candidate where
  objectId : Nat
  argnames : List String
  binding : String → Context

/-- Embedding of `Candidate.get_contexts` (candidate.py lines 27-29):
`tuple(getattr(self, name) for name in self.__argnames__)`. -/
def Candidate.get_contexts (c : Candidate) : List Context :=
  c.argnames.map c.binding

/-- Embedding of `Candidate.get_parent` (candidate.py lines 31-37):
computes `p = [c.get_parent() for c in self.get_contexts()]`, returns `p[0]`
when `p.count(p[0]) == len(p)` and raises otherwise.  On an empty context
list Python raises `IndexError` at `p[0]`; both raises are modelled by
`Except.error`. -/
def Candidate.get_parent (c : Candidate) : Except String String :=
  match c.get_contexts.map Context.get_parent with
  | [] => Except.error "IndexError: list index out of range"
  | p0 :: rest =>
    if (p0 :: rest).count p0 = (p0 :: rest).length then
      Except.ok p0
    else
      Except.error "Contexts do not all have same parent"

/-- Embedding of `Candidate.__len__` (candidate.py lines 43-44 and 51-52):
`len(self.__argnames__)`. -/
def Candidate.len (c : Candidate) : Nat :=
  c.argnames.length

/-- Embedding of `Candidate.__getitem__` (candidate.py lines 46-47):
`self.get_contexts()[key]`; the out-of-range `IndexError` channel is the
`none` case of `Option`. -/
def Candidate.getitem (c : Candidate) (key : Nat) : Option Context :=
  c.get_contexts.get? key

/-- The ordered tuple `tuple(c.stable_id for c in self.get_contexts())`
hashed by `Candidate.__hash__` (candidate.py lines 55-56). -/
def Candidate.stableIdTuple (c : Candidate) : List String :=
  c.get_contexts.map Context.stable_id

/-- Embedding of `Candidate.__hash__` (candidate.py lines 55-56):
`hash(tuple(c.stable_id for c in self.get_contexts()))`.  CPython's hash of a
tuple of strings is modelled by Lean's `Hashable.hash` of the list of stable
identifiers; the only property relied on is that the hash is a function of
that ordered tuple. -/
def Candidate.pyHash (c : Candidate) : UInt64 :=
  Hashable.hash c.stableIdTuple

/-- Modelled from the spec: `camel_to_under` lives in `snorkel/utils.py`,
which is not under `src/`.  Spec section 4.2: the structure name is "derived
deterministically from `variant_name` by a case-convention transform — e.g.
\"NewCandidateClass\" → \"new_candidate_class\"": an underscore is inserted
before every uppercase letter that does not start the name, and the result is
lowercased. -/
def camel_to_under (name : String) : String :=
  String.mk ((name.data.enum.map (fun p =>
    if p.2.isUpper && p.1 != 0 then ['_', p.2.toLower] else [p.2.toLower])).flatten)

/-- The concrete variant type built by `candidate_subclass` (candidate.py
lines 76-110): the declarative attributes of the generated class that the
specification talks about.  `uniqueConstraint` records the column names
passed to `UniqueConstraint(*unique_con_args)` (lines 93-109), `argnames`
the `__argnames__` attribute, `polymorphic_identity` the
`__mapper_args__` discriminator value, and `tablename` the
`__tablename__`. -/
structure VariantDescriptor where
  className : String
  tablename : String
  polymorphic_identity : String
  argnames : List String
  uniqueConstraint : List String
deriving DecidableEq, Repr

/-- Embedding of the table-name derivation at candidate.py line 76:
`table_name = camel_to_under(class_name) if table_name is None else
table_name`. -/
def derived_table_name (class_name : String) (table_name : Option String) :
    String :=
  match table_name with
  | none => camel_to_under class_name
  | some t => t

/-- Embedding of `candidate_subclass` (candidate.py lines 59-117), including
both of its side effects.  `meta` models the set of table names already
registered with the declarative base metadata (`SnorkelBase.metadata`) in
the current process, and `db` models the tables existing in the database.
The body performs no validation of `args` and contains no raise statement of
its own: it derives the table name (line 76) and assembles the class
attributes with the per-role columns `arg + '_id'` collected into the unique
constraint (lines 77-109).  The class creation
`C = type(class_name, (Candidate,), class_attribs)` at line 112 runs
SQLAlchemy's declarative metaclass, which registers `__tablename__` with the
shared MetaData and raises `InvalidRequestError` when a table of that name
is already defined in this process — before the `has_table` guard is ever
reached.  On success the table is created in the database only if
`has_table` is false (lines 115-116). -/
def candidate_subclass (class_name : String) (args : List String)
    (table_name : Option String) (meta db : List String) :
    Except String (VariantDescriptor × List String × List String) :=
  let tname := derived_table_name class_name table_name
  let d : VariantDescriptor :=
    { className := class_name
      tablename := tname
      polymorphic_identity := tname
      argnames := args
      uniqueConstraint := args.map (fun a => a ++ "_id") }
  if tname ∈ meta then
    Except.error ("InvalidRequestError: Table " ++ tname ++
      " is already defined for this MetaData instance")
  else
    Except.ok (d, meta ++ [tname], if tname ∈ db then db else db ++ [tname])

/-- An in-memory object `c` is an instance of the variant `d` produced by the
factory when its class attribute `__argnames__` is the one installed by
`candidate_subclass`. -/
def Candidate.isInstanceOf (c : Candidate) (d : VariantDescriptor) : Prop :=
  c.argnames = d.argnames

/-- A spaCy token as consumed by `Spacy.parse_sent`
(`spacy_parser.py` lines 123-141): `text` is `str(token)`, and `lemma_`,
`tag_`, `ent_type_` (empty string when absent) and `dep_` carry the
homonymous spaCy attributes.  `idx` is `token.idx` (character offset within
the document), `i` is `token.i` (token index within the document), and
`headI` is `token.head.i`.  Within one document spaCy tokens are identified
by their index, so the identity test `token.head is token` holds exactly
when `headI = i`. -/
structure SpacyToken where
  text : String
  lemma_ : String
  tag_ : String
  ent_type_ : String
  idx : Int
  i : Int
  headI : Int
  dep_ : String
deriving DecidableEq, Repr

/-- The per-sentence annotation record built by `Spacy.parse_sent`
(`spacy_parser.py` lines 123-156).  The document back-reference and the
stable-id construction (the external `construct_stable_id`, absent from
`src/`) are not modelled, since no claim concerns them. -/
structure SentenceParts where
  words : List String
  lemmas : List String
  pos_tags : List String
  ner_tags : List String
  char_offsets : List Int
  abs_char_offsets : List Int
  dep_parents : List Int
  dep_labels : List String
  entity_cids : List String
  entity_types : List String
  position : Nat
  text : String
deriving DecidableEq, Repr

/-- Embedding of `Spacy.parse_sent` (spacy_parser.py lines 123-156).  The
token loop appends, per token: `str(token)`, `token.lemma_`, `token.tag_`,
`token.ent_type_ if token.ent_type_ else 'O'`, `token.idx` to both
`char_offsets` and `abs_char_offsets`, the head index
`0 if token.head is token else token.head.i - sent[0].i + 1`, and
`token.dep_`.  Afterwards `char_offsets` is rebased by its first entry:
`[p - parts['char_offsets'][0] for p in parts['char_offsets']]`; on an empty
sentence that subscript raises `IndexError`, modelled by `Except.error`.
`update_entity_attributes` (lines 158-160) fills `entity_cids` and
`entity_types` with `'O'` per word. -/
def parse_sent (sent : List SpacyToken) (position : Nat) (text : String) :
    Except String SentenceParts :=
  match sent with
  | [] => Except.error "IndexError: list index out of range"
  | t0 :: _ =>
    let words := sent.map (fun t => t.text)
    Except.ok
      { words := words
        lemmas := sent.map (fun t => t.lemma_)
        pos_tags := sent.map (fun t => t.tag_)
        ner_tags := sent.map (fun t => if t.ent_type_ = "" then "O" else t.ent_type_)
        char_offsets := (sent.map (fun t => t.idx)).map (fun p => p - t0.idx)
        abs_char_offsets := sent.map (fun t => t.idx)
        dep_parents := sent.map (fun t =>
          if t.headI = t.i then 0 else t.headI - t0.i + 1)
        dep_labels := sent.map (fun t => t.dep_)
        entity_cids := words.map (fun _ => "O")
        entity_types := words.map (fun _ => "O")
        position := position
        text := text }

/-- Embedding of the generator loop of `Spacy.parse` (spacy_parser.py lines
107-121): for each sentence it tries `parse_sent`; on success the position
counter is incremented and the record is yielded; on an exception the
failure is logged with `logger.warn('parse: Failed to parse sentence
{position}...')` and the loop continues with the next sentence.  The result
is the list of yielded records together with the log of
`(position, message)` pairs for the failed sentences.  Tokenisation and the
spaCy pipeline (lines 102-105) are external and not modelled: the loop is
given the already-segmented sentences. -/
def parse (sents : List (List SpacyToken × String)) (position : Nat) :
    List SentenceParts × List (Nat × String) :=
  match sents with
  | [] => ([], [])
  | s :: rest =>
    match parse_sent s.1 position s.2 with
    | Except.ok parts =>
      let r := parse rest (position + 1)
      (parts :: r.1, r.2)
    | Except.error e =>
      let r := parse rest position
      (r.1, (position, e) :: r.2)

/-- A concrete Context spanning characters 0-3 of document `doc1`. -/
def ctxA : Context :=
  { stable_id := "doc1::span:0-3", parent := "doc1" }

/-- A concrete Context spanning characters 4-7 of document `doc1`. -/
def ctxB : Context :=
  { stable_id := "doc1::span:4-7", parent := "doc1" }

/-- A concrete Context from a different document `doc2`. -/
def ctxC : Context :=
  { stable_id := "doc2::span:0-3", parent := "doc2" }

/-- A concrete one-role candidate instance bound to `ctxA`. -/
def cand1 : Candidate :=
  { objectId := 1, argnames := ["person"], binding := fun _ => ctxA }

/-- A second, distinct in-memory candidate instance (for example obtained
from a separate storage round-trip) bound to the same Context as `cand1`;
its object identity differs. -/
def cand2 : Candidate :=
  { objectId := 2, argnames := ["person"], binding := fun _ => ctxA }

/-- A concrete two-role candidate whose constituent Contexts share the
parent `doc1`. -/
def candSameParent : Candidate :=
  { objectId := 3, argnames := ["person1", "person2"],
    binding := fun n => if n = "person1" then ctxA else ctxB }

/-- A concrete two-role candidate whose constituent Contexts have the
distinct parents `doc1` and `doc2`. -/
def candDiffParent : Candidate :=
  { objectId := 4, argnames := ["person1", "person2"],
    binding := fun n => if n = "person1" then ctxA else ctxC }

/-- A concrete spaCy token "Ann" at document position 0 whose head is the
token at document position 1. -/
def tokAnn : SpacyToken :=
  { text := "Ann", lemma_ := "ann", tag_ := "NNP", ent_type_ := "PERSON",
    idx := 0, i := 0, headI := 1, dep_ := "nsubj" }

/-- A concrete spaCy token "met" at document position 1 that is the
dependency root of its sentence (its head is itself). -/
def tokMet : SpacyToken :=
  { text := "met", lemma_ := "meet", tag_ := "VBD", ent_type_ := "",
    idx := 4, i := 1, headI := 1, dep_ := "ROOT" }

/-- The annotation record produced by `parse_sent` for the concrete
two-token sentence "Ann met" at position 0. -/
def partsAnnMet : SentenceParts :=
  { words := ["Ann", "met"]
    lemmas := ["ann", "meet"]
    pos_tags := ["NNP", "VBD"]
    ner_tags := ["PERSON", "O"]
    char_offsets := [0, 4]
    abs_char_offsets := [0, 4]
    dep_parents := [2, 0]
    dep_labels := ["nsubj", "ROOT"]
    entity_cids := ["O", "O"]
    entity_types := ["O", "O"]
    position := 0
    text := "Ann met" }

/-- C1: counterexample. `cand1` and `cand2` are two Candidate instances
whose ordered tuples of constituent Contexts' stable identifiers match
component-wise and whose hashes match, yet the instances are not equal:
`Candidate` overrides `__hash__` (candidate.py lines 55-56) but not
`__eq__`, so Python equality remains object identity. -/
theorem c1_identity_counterexample :
    cand1.stableIdTuple = cand2.stableIdTuple ∧
    cand1.pyHash = cand2.pyHash ∧
    cand1 ≠ cand2 := by
  refine ⟨rfl, rfl, fun h => ?_⟩
  have h1 : cand1.objectId = cand2.objectId := congrArg Candidate.objectId h
  simp [cand1, cand2] at h1

/-- C1 (amended): the hash of a Candidate is a function of the ordered
stable-identifier tuple of its constituent Contexts, so matching tuples
give matching hashes, equal instances have matching tuples, and instances
with differing tuples are never equal; but since only `__hash__` is
overridden, equality is object identity, and matching tuples do not make
two distinct instances equal. -/
theorem c1_hash_from_stable_ids (a b : Candidate) :
    (a.stableIdTuple = b.stableIdTuple → a.pyHash = b.pyHash) ∧
    (a = b → a.stableIdTuple = b.stableIdTuple) ∧
    (a.stableIdTuple ≠ b.stableIdTuple → a ≠ b) := by
  refine ⟨fun h => ?_, fun h => congrArg Candidate.stableIdTuple h,
    fun h hab => h (congrArg Candidate.stableIdTuple hab)⟩
  unfold Candidate.pyHash
  rw [h]

/-- C1 (amended) witness: the amended statement evaluated at the concrete
pair `cand1`, `cand2`. -/
theorem c1_hash_from_stable_ids_witness :
    (cand1.stableIdTuple = cand2.stableIdTuple → cand1.pyHash = cand2.pyHash) ∧
    (cand1 = cand2 → cand1.stableIdTuple = cand2.stableIdTuple) ∧
    (cand1.stableIdTuple ≠ cand2.stableIdTuple → cand1 ≠ cand2) :=
  c1_hash_from_stable_ids cand1 cand2

/-- C2: counterexample. The factory does not fail on an empty role list: it
returns a complete variant descriptor with an empty unique constraint and
creates the backing table (a structure IS left behind); and it does not fail
on a duplicated role name either, returning a descriptor whose unique
constraint lists the duplicated column twice. -/
theorem c2_no_validation_counterexample :
    candidate_subclass "PairCandidate" [] none [] [] =
      Except.ok ({ className := "PairCandidate", tablename := "pair_candidate",
                   polymorphic_identity := "pair_candidate", argnames := [],
                   uniqueConstraint := [] },
                 ["pair_candidate"], ["pair_candidate"]) ∧
    candidate_subclass "PairCandidate" ["span", "span"] none [] [] =
      Except.ok ({ className := "PairCandidate", tablename := "pair_candidate",
                   polymorphic_identity := "pair_candidate",
                   argnames := ["span", "span"],
                   uniqueConstraint := ["span_id", "span_id"] },
                 ["pair_candidate"], ["pair_candidate"]) := by
  exact ⟨rfl, rfl⟩

/-- C2 (amended): `candidate_subclass` performs no validation of the role
list: whenever the structure name is not already registered in the process
metadata (the separate name-collision failure at class creation), the
invocation succeeds for every role list — including the empty and the
duplicate one — and returns a variant descriptor; the role list never
causes an error. -/
theorem c2_factory_never_fails (class_name : String) (args : List String)
    (table_name : Option String) (meta db : List String)
    (hfresh : derived_table_name class_name table_name ∉ meta) :
    ∃ p, candidate_subclass class_name args table_name meta db =
      Except.ok p := by
  simp only [candidate_subclass]
  rw [if_neg hfresh]
  exact ⟨_, rfl⟩

/-- C2 (amended) witness: the concrete duplicate-role invocation on fresh
state succeeds. -/
theorem c2_factory_never_fails_witness :
    (candidate_subclass "PairCandidate" ["span", "span"] none
      [] []).toOption.isSome = true := by
  obtain ⟨p, hp⟩ := c2_factory_never_fails "PairCandidate" ["span", "span"]
    none [] [] (List.not_mem_nil _)
  rw [hp]
  rfl

/-- C3: for every Candidate with at least one role, `get_parent` returns the
parent of its first constituent Context when every constituent Context's
parent equals that first parent, and raises the "Contexts do not all have
same parent" error when the constituent Contexts do not all share the same
parent. -/
theorem c3_get_parent_common_or_error (c : Candidate) (c0 : Context)
    (cs : List Context) (h : c.get_contexts = c0 :: cs) :
    ((∀ x ∈ c.get_contexts, x.get_parent = c0.get_parent) →
        c.get_parent = Except.ok c0.get_parent) ∧
    ((∃ x ∈ c.get_contexts, x.get_parent ≠ c0.get_parent) →
        c.get_parent = Except.error "Contexts do not all have same parent") := by
  unfold Candidate.get_parent
  rw [h]
  rw [List.map_cons]
  dsimp only
  constructor
  · intro hall
    rw [if_pos]
    rw [List.count_eq_length]
    intro b hb
    rcases List.mem_cons.mp hb with hb1 | hb1
    · exact hb1.symm
    · rcases List.mem_map.mp hb1 with ⟨x, hx, hxb⟩
      rw [← hxb]
      exact (hall x (List.mem_cons_of_mem _ hx)).symm
  · rintro ⟨x, hx, hxne⟩
    rw [if_neg]
    intro hcount
    rw [List.count_eq_length] at hcount
    have hmem : x.get_parent ∈ c0.get_parent :: List.map Context.get_parent cs := by
      rcases List.mem_cons.mp hx with hx0 | hx0
      · rw [hx0]
        exact List.mem_cons_self _ _
      · exact List.mem_cons_of_mem _ (List.mem_map.mpr ⟨x, hx0, rfl⟩)
    exact hxne (hcount x.get_parent hmem).symm

/-- C3 witness: on `candSameParent` (both Contexts owned by `doc1`) the
common parent is returned; on `candDiffParent` (parents `doc1` and `doc2`)
the parentage error is raised. -/
theorem c3_get_parent_common_or_error_witness :
    candSameParent.get_parent = Except.ok "doc1" ∧
    candDiffParent.get_parent =
      Except.error "Contexts do not all have same parent" := by
  constructor
  · exact (c3_get_parent_common_or_error candSameParent ctxA [ctxB] rfl).1
      (by decide)
  · exact (c3_get_parent_common_or_error candDiffParent ctxA [ctxC] rfl).2
      ⟨ctxC, by decide, by decide⟩

/-- Helper: inversion of a successful factory call — the structure name was
not yet registered, the descriptor is the assembled one, the name is now
registered, and the table was created only if absent. -/
theorem candidate_subclass_ok_inv (class_name : String) (args : List String)
    (table_name : Option String) (meta db meta2 db2 : List String)
    (d : VariantDescriptor)
    (h : candidate_subclass class_name args table_name meta db =
      Except.ok (d, meta2, db2)) :
    derived_table_name class_name table_name ∉ meta ∧
    d = { className := class_name
          tablename := derived_table_name class_name table_name
          polymorphic_identity := derived_table_name class_name table_name
          argnames := args
          uniqueConstraint := args.map (fun a => a ++ "_id") } ∧
    meta2 = meta ++ [derived_table_name class_name table_name] ∧
    db2 = (if derived_table_name class_name table_name ∈ db then db
      else db ++ [derived_table_name class_name table_name]) := by
  simp only [candidate_subclass] at h
  by_cases hmem : derived_table_name class_name table_name ∈ meta
  · rw [if_pos hmem] at h
    exact absurd h (by simp)
  · rw [if_neg hmem] at h
    simp only [Except.ok.injEq, Prod.mk.injEq] at h
    obtain ⟨hd, hm, hdb⟩ := h
    exact ⟨hmem, hd.symm, hm.symm, hdb.symm⟩

/-- C4: the uniqueness constraint declared by the factory spans exactly the
role Context-reference columns `{role}_id`, one per role in declared order,
and no other columns. -/
theorem c4_unique_constraint_exact (class_name : String) (args : List String)
    (table_name : Option String) (meta db meta2 db2 : List String)
    (d : VariantDescriptor)
    (h : candidate_subclass class_name args table_name meta db =
      Except.ok (d, meta2, db2)) :
    d.uniqueConstraint = args.map (fun a => a ++ "_id") ∧
    ∀ col, col ∈ d.uniqueConstraint ↔ ∃ a ∈ args, col = a ++ "_id" := by
  obtain ⟨-, hd, -, -⟩ := candidate_subclass_ok_inv class_name args
    table_name meta db meta2 db2 d h
  subst hd
  refine ⟨rfl, fun col => ?_⟩
  simp only [List.mem_map]
  constructor
  · rintro ⟨a, ha, hcol⟩
    exact ⟨a, ha, hcol.symm⟩
  · rintro ⟨a, ha, hcol⟩
    exact ⟨a, ha, hcol.symm⟩

/-- C4 witness: the factory applied to the two-role list
`["person1", "person2"]` declares the unique constraint
`["person1_id", "person2_id"]`. -/
theorem c4_unique_constraint_exact_witness :
    ({ className := "BinaryCandidate", tablename := "binary_candidate",
       polymorphic_identity := "binary_candidate",
       argnames := ["person1", "person2"],
       uniqueConstraint := ["person1_id", "person2_id"] } :
      VariantDescriptor).uniqueConstraint =
      ["person1", "person2"].map (fun a => a ++ "_id") :=
  (c4_unique_constraint_exact "BinaryCandidate" ["person1", "person2"] none
    [] [] ["binary_candidate"] ["binary_candidate"] _ rfl).1

/-- C5: a variant minted from a role list `R` of length at least 1 with
unique names has arity `|R|` (`__len__` reports `|R|`), and on every
instance `get_contexts` returns the bound Contexts in `R`'s declared order,
with positional indexing (`__getitem__`) accessing that same ordered
sequence. -/
theorem c5_arity_and_order (class_name : String) (R : List String)
    (table_name : Option String) (meta db meta2 db2 : List String)
    (d : VariantDescriptor) (c : Candidate)
    (_hR : R ≠ []) (_hnodup : R.Nodup)
    (hfac : candidate_subclass class_name R table_name meta db =
      Except.ok (d, meta2, db2))
    (hinst : c.isInstanceOf d) :
    c.len = R.length ∧
    c.get_contexts = R.map c.binding ∧
    ∀ key, c.getitem key = (R.map c.binding).get? key := by
  obtain ⟨-, hd, -, -⟩ := candidate_subclass_ok_inv class_name R
    table_name meta db meta2 db2 d hfac
  have hargs : c.argnames = R := by
    rw [hinst, hd]
  refine ⟨?_, ?_, fun key => ?_⟩
  · rw [Candidate.len, hargs]
  · rw [Candidate.get_contexts, hargs]
  · rw [Candidate.getitem, Candidate.get_contexts, hargs]

/-- C5 witness: the binary variant evaluated on a concrete instance: arity
2, contexts in declared role order, and positional access agreeing with
that order. -/
theorem c5_arity_and_order_witness :
    candSameParent.len = 2 ∧
    candSameParent.get_contexts =
      ["person1", "person2"].map candSameParent.binding ∧
    ∀ key, candSameParent.getitem key =
      (["person1", "person2"].map candSameParent.binding).get? key :=
  c5_arity_and_order "BinaryCandidate" ["person1", "person2"] none [] []
    ["binary_candidate"] ["binary_candidate"] _ candSameParent (by decide)
    (by decide) rfl rfl

/-- Helper: the check-then-create step always leaves the table present. -/
theorem ensure_table_mem (t : String) (db : List String) :
    t ∈ (if t ∈ db then db else db ++ [t]) := by
  by_cases hc : t ∈ db
  · rw [if_pos hc]
    exact hc
  · rw [if_neg hc]
    exact List.mem_append_right _ (List.mem_singleton.mpr rfl)

/-- C6: counterexample. The first invocation of the factory for
`BinaryCandidate` on fresh process state succeeds, but repeating the
identical invocation in the same process — against the metadata registry
and database left by the first call — fails with `InvalidRequestError`:
the declarative metaclass refuses to redefine the table at class creation
(candidate.py line 112), before the `has_table` guard is ever reached.
The repeated call therefore DOES fail, refuting the claim. -/
theorem c6_repeat_counterexample :
    candidate_subclass "BinaryCandidate" ["person1", "person2"] none [] [] =
      Except.ok ({ className := "BinaryCandidate",
                   tablename := "binary_candidate",
                   polymorphic_identity := "binary_candidate",
                   argnames := ["person1", "person2"],
                   uniqueConstraint := ["person1_id", "person2_id"] },
                 ["binary_candidate"], ["binary_candidate"]) ∧
    candidate_subclass "BinaryCandidate" ["person1", "person2"] none
      ["binary_candidate"] ["binary_candidate"] =
      Except.error ("InvalidRequestError: Table binary_candidate is already defined for this MetaData instance") :=
  ⟨rfl, rfl⟩

/-- C6 (amended): repetition with the same structure name and identical
role list splits by process state.  In the same process, a second
invocation fails at class creation with `InvalidRequestError` (declarative
table redefinition), whatever the database contains, before the `has_table`
guard.  Only the storage side effect is idempotent: re-running the factory
with fresh process metadata against the database left by a first successful
run does not fail, creates no duplicate table (the database table list is
unchanged), and returns a descriptor identical to the first invocation's
result. -/
theorem c6_idempotent_table_creation (class_name : String)
    (args : List String) (table_name : Option String)
    (meta db meta1 db1 meta2 : List String) (d : VariantDescriptor)
    (h : candidate_subclass class_name args table_name meta db =
      Except.ok (d, meta1, db1))
    (hfresh : derived_table_name class_name table_name ∉ meta2) :
    candidate_subclass class_name args table_name meta2 db1 =
      Except.ok (d, meta2 ++ [derived_table_name class_name table_name],
        db1) ∧
    ∀ db3, candidate_subclass class_name args table_name meta1 db3 =
      Except.error ("InvalidRequestError: Table " ++
        derived_table_name class_name table_name ++
        " is already defined for this MetaData instance") := by
  obtain ⟨-, hd, hm, hdb⟩ := candidate_subclass_ok_inv class_name args
    table_name meta db meta1 db1 d h
  constructor
  · simp only [candidate_subclass]
    rw [if_neg hfresh]
    subst hdb
    rw [if_pos (ensure_table_mem _ db), hd]
  · intro db3
    have hmem : derived_table_name class_name table_name ∈ meta1 := by
      rw [hm]
      exact List.mem_append_right _ (List.mem_singleton.mpr rfl)
    simp only [candidate_subclass]
    rw [if_pos hmem]

/-- C6 (amended) witness: evaluated concretely — the rerun with fresh
process metadata against the existing table succeeds with an unchanged
table list and the identical descriptor, while the same-process rerun
fails with `InvalidRequestError`. -/
theorem c6_idempotent_table_creation_witness :
    candidate_subclass "BinaryCandidate" ["person1", "person2"] none []
      ["binary_candidate"] =
      Except.ok ({ className := "BinaryCandidate",
                   tablename := "binary_candidate",
                   polymorphic_identity := "binary_candidate",
                   argnames := ["person1", "person2"],
                   uniqueConstraint := ["person1_id", "person2_id"] },
                 ["binary_candidate"], ["binary_candidate"]) ∧
    candidate_subclass "BinaryCandidate" ["person1", "person2"] none
      ["binary_candidate"] ["binary_candidate"] =
      Except.error ("InvalidRequestError: Table " ++
        derived_table_name "BinaryCandidate" none ++
        " is already defined for this MetaData instance") := by
  have h := c6_idempotent_table_creation "BinaryCandidate"
    ["person1", "person2"] none [] [] ["binary_candidate"]
    ["binary_candidate"] []
    { className := "BinaryCandidate", tablename := "binary_candidate",
      polymorphic_identity := "binary_candidate",
      argnames := ["person1", "person2"],
      uniqueConstraint := ["person1_id", "person2_id"] }
    rfl (List.not_mem_nil _)
  exact ⟨h.1, h.2 ["binary_candidate"]⟩

/-- C7: when the table name is omitted, the factory derives it from the
class name by the camel-case-to-underscore transform, and that derived name
is also the variant's polymorphic discriminator value. -/
theorem c7_derived_table_name (class_name : String) (args : List String)
    (meta db meta2 db2 : List String) (d : VariantDescriptor)
    (h : candidate_subclass class_name args none meta db =
      Except.ok (d, meta2, db2)) :
    d.tablename = camel_to_under class_name ∧
    d.polymorphic_identity = camel_to_under class_name := by
  obtain ⟨-, hd, -, -⟩ := candidate_subclass_ok_inv class_name args
    none meta db meta2 db2 d h
  subst hd
  exact ⟨rfl, rfl⟩

/-- C7 witness: for the class name "NewCandidateClass" the derived table
name and discriminator are "new_candidate_class", matching the transform
example from the specification. -/
theorem c7_derived_table_name_witness :
    ({ className := "NewCandidateClass", tablename := "new_candidate_class",
       polymorphic_identity := "new_candidate_class",
       argnames := ["person"],
       uniqueConstraint := ["person_id"] } :
      VariantDescriptor).tablename = camel_to_under "NewCandidateClass" ∧
    camel_to_under "NewCandidateClass" = "new_candidate_class" :=
  ⟨(c7_derived_table_name "NewCandidateClass" ["person"] [] []
      ["new_candidate_class"] ["new_candidate_class"] _ rfl).1, rfl⟩

/-- C8: for every token of a parsed sentence, the `dep_parents` entry is 0
when the token is the dependency root (its head is itself) and otherwise the
1-based index within the sentence of the governing (head) token, given that
the sentence's tokens carry consecutive document indices starting at the
first token (as spaCy sentences do). -/
theorem c8_dep_parents (sent : List SpacyToken) (position : Nat)
    (text : String) (parts : SentenceParts) (t0 : SpacyToken)
    (hok : parse_sent sent position text = Except.ok parts)
    (hhead : sent.head? = some t0)
    (hconsec : ∀ k, (hk : k < sent.length) → (sent[k]).i = t0.i + k)
    (i : Nat) (hi : i < sent.length) :
    (sent[i].headI = sent[i].i → parts.dep_parents[i]? = some 0) ∧
    (∀ j, (hj : j < sent.length) → sent[i].headI ≠ sent[i].i →
      sent[j].i = sent[i].headI →
      parts.dep_parents[i]? = some ((j : Int) + 1)) := by
  cases sent with
  | nil =>
    simp [parse_sent] at hok
  | cons t rest =>
    simp only [List.head?_cons, Option.some.injEq] at hhead
    subst hhead
    simp only [parse_sent, Except.ok.injEq] at hok
    subst hok
    have hmap : ∀ (m : Nat) (hm : m < (t :: rest).length),
        ((t :: rest).map (fun u => if u.headI = u.i then (0 : Int)
          else u.headI - t.i + 1))[m]? =
        some (if (t :: rest)[m].headI = (t :: rest)[m].i then (0 : Int)
          else (t :: rest)[m].headI - t.i + 1) := by
      intro m hm
      rw [List.getElem?_map, List.getElem?_eq_getElem hm]
      rfl
    constructor
    · intro hroot
      show ((t :: rest).map _)[i]? = some 0
      rw [hmap i hi, if_pos hroot]
    · intro j hj hne hji
      show ((t :: rest).map _)[i]? = some ((j : Int) + 1)
      rw [hmap i hi, if_neg hne]
      have hcj : ((t :: rest)[j]).i = t.i + j := hconsec j hj
      rw [hji] at hcj
      rw [hcj]
      simp only [Option.some.injEq]
      ring

/-- C8 witness: in the sentence "Ann met", the token "Ann" (head "met" at
sentence index 1) gets dep parent 2, and the root token "met" gets 0. -/
theorem c8_dep_parents_witness :
    partsAnnMet.dep_parents[0]? = some 2 ∧
    partsAnnMet.dep_parents[1]? = some 0 := by
  constructor
  · exact (c8_dep_parents [tokAnn, tokMet] 0 "Ann met" partsAnnMet tokAnn
      rfl rfl (by decide) 0 (by decide)).2 1 (by decide) (by decide)
      (by decide)
  · exact (c8_dep_parents [tokAnn, tokMet] 0 "Ann met" partsAnnMet tokAnn
      rfl rfl (by decide) 1 (by decide)).1 (by decide)

/-- C9: when `parse_sent` raises on an individual sentence, the `parse`
loop records a log entry for it, yields nothing for it, does not advance
the position counter, and processes the remaining sentences exactly as it
would have without the failing sentence: the document is not aborted. -/
theorem c9_failed_sentence_skipped (s : List SpacyToken × String)
    (rest : List (List SpacyToken × String)) (position : Nat) (e : String)
    (herr : parse_sent s.1 position s.2 = Except.error e) :
    parse (s :: rest) position =
      ((parse rest position).1, (position, e) :: (parse rest position).2) := by
  simp only [parse, herr]

/-- C9 witness: a document whose first sentence is empty (for which
`parse_sent` raises an IndexError) still gets its second sentence parsed;
the failure is logged at position 0. -/
theorem c9_failed_sentence_skipped_witness :
    parse [([], "bad sentence"), ([tokMet], "met")] 0 =
      ((parse [([tokMet], "met")] 0).1,
       (0, "IndexError: list index out of range") ::
         (parse [([tokMet], "met")] 0).2) :=
  c9_failed_sentence_skipped ([], "bad sentence") [([tokMet], "met")] 0
    "IndexError: list index out of range" rfl

/-- C10: every record yielded by `parse_sent` has `char_offsets` of the
same length as `abs_char_offsets`, with `char_offsets[i]` equal to
`abs_char_offsets[i] - abs_char_offsets[0]` for every token index `i`; in
particular `char_offsets[0] = 0`, i.e. offsets are rebased to the first
token of the sentence. -/
theorem c10_char_offsets_relative (sent : List SpacyToken) (position : Nat)
    (text : String) (parts : SentenceParts)
    (hok : parse_sent sent position text = Except.ok parts) :
    parts.char_offsets.length = parts.abs_char_offsets.length ∧
    parts.char_offsets[0]? = some 0 ∧
    ∀ (i : Nat) (a0 a : Int), parts.abs_char_offsets[0]? = some a0 →
      parts.abs_char_offsets[i]? = some a →
      parts.char_offsets[i]? = some (a - a0) := by
  cases sent with
  | nil =>
    simp [parse_sent] at hok
  | cons t0 rest =>
    simp only [parse_sent, Except.ok.injEq] at hok
    subst hok
    refine ⟨by simp, by simp, fun i a0 a h0 hA => ?_⟩
    simp only [List.getElem?_cons_zero, List.map_cons, Option.some.injEq] at h0
    show (((t0 :: rest).map (fun t => t.idx)).map (fun p => p - t0.idx))[i]? =
      some (a - a0)
    rw [List.getElem?_map]
    have hA2 : ((t0 :: rest).map (fun t => t.idx))[i]? = some a := hA
    rw [hA2]
    simp only [Option.map_some']
    rw [← h0]

/-- C10 witness: in the concrete "Ann met" record, `char_offsets` has the
length of `abs_char_offsets`, starts at 0, and its entry 1 equals
`abs_char_offsets[1] - abs_char_offsets[0] = 4 - 0`. -/
theorem c10_char_offsets_relative_witness :
    partsAnnMet.char_offsets.length = partsAnnMet.abs_char_offsets.length ∧
    partsAnnMet.char_offsets[0]? = some 0 ∧
    partsAnnMet.char_offsets[1]? = some ((4 : Int) - 0) := by
  refine ⟨?_, ?_, ?_⟩
  · exact (c10_char_offsets_relative [tokAnn, tokMet] 0 "Ann met"
      partsAnnMet rfl).1
  · exact (c10_char_offsets_relative [tokAnn, tokMet] 0 "Ann met"
      partsAnnMet rfl).2.1
  · exact (c10_char_offsets_relative [tokAnn, tokMet] 0 "Ann met"
      partsAnnMet rfl).2.2 1 0 4 rfl rfl
